import Mathlib

/-!
Verification of the checkpointed replicated-state-machine layer
(`cluster::persisted_stm`, src/src/v/cluster/persisted_stm.cc).

The embedding models the snapshot codec (`persist_snapshot` /
`load_snapshot`), the startup hydration procedure (`start`), the
checkpoint scheduler (`ensure_snapshot_exists` / `do_make_snapshot`),
and the leader-sync protocol (`sync` / `do_sync`) as pure functions
over explicit state. Readings of the external consensus engine and the
outcomes of the suspension points (commit-index wait, apply-cursor
wait) are supplied by environment records, so a theorem quantifying
over the environment covers every schedule of the external world.

Machine integers are modelled as `Int`, with explicit two's-complement
byte encoding where serialization matters.
-/

namespace PersistedStm

/-! ## Little-endian two's-complement integer codec

`reflection::adl<intN_t>` (the serialization library, outside src/)
writes fixed-width integers verbatim; modelled as little-endian
two's-complement bytes, matching the field widths the spec gives for
the on-disk layout. -/

/-- Little-endian byte decomposition of a natural number, `w` bytes. -/
def natToLE : Nat → Nat → List Nat
  | 0, _ => []
  | w + 1, n => n % 256 :: natToLE w (n / 256)

/-- Little-endian byte recomposition. -/
def leToNat : List Nat → Nat
  | [] => 0
  | b :: rest => b + 256 * leToNat rest

/-- Two's-complement representative of an integer in `w` bytes. -/
def toUnsigned (w : Nat) (i : Int) : Nat := (i % (256 ^ w : Int)).toNat

/-- Reinterpret an unsigned `w`-byte value as a signed integer. -/
def toSigned (w : Nat) (n : Nat) : Int :=
  if 2 * n < 256 ^ w then (n : Int) else (n : Int) - 256 ^ w

/-- Serialize an integer as `w` little-endian two's-complement bytes. -/
def serInt (w : Nat) (i : Int) : List Nat := natToLE w (toUnsigned w i)

/-- Parse `w` little-endian two's-complement bytes off the front of a
byte list; `none` models a parser-underflow exception. -/
def parseLE (w : Nat) (l : List Nat) : Option (Int × List Nat) :=
  if w ≤ l.length then some (toSigned w (leToNat (l.take w)), l.drop w) else none

/-! ## Snapshot data model (`stm_snapshot`, persisted_stm.h) -/

/-- Modelled from the spec: the current snapshot format-version tag.
Declared in persisted_stm.h, which is not under src/; the spec only
requires a current tag distinct from the legacy tag. -/
def snapshot_version : Int := 1

/-- Modelled from the spec: the recognized legacy format-version tag
(distinct from `snapshot_version`); persisted_stm.h is not under src/. -/
def snapshot_version_v0 : Int := 0

/-- Snapshot header: covered offset (int64), payload version (int8),
payload size (int32). -/
structure stm_snapshot_header where
  offset : Int
  version : Int
  snapshot_size : Int
  deriving Repr, DecidableEq

/-- A checkpoint: header plus opaque payload bytes. -/
structure stm_snapshot where
  header : stm_snapshot_header
  data : List Nat
  deriving Repr, DecidableEq

/-- The on-disk snapshot artifact as the snapshot file manager presents
it: a metadata block (`read_metadata`) and the remaining payload stream
(`input`). The flattened byte layout is `meta ++ data`. -/
structure SnapFile where
  meta : List Nat
  data : List Nat
  deriving Repr, DecidableEq

/-- `persist_snapshot` serializes `[format_version:1][covered_offset:8]
[payload_version:1][payload_size:4]` into the metadata block, then the
payload verbatim. -/
def persist_snapshot (s : stm_snapshot) : SnapFile :=
  { meta := serInt 1 snapshot_version ++ (serInt 8 s.header.offset
      ++ (serInt 1 s.header.version ++ serInt 4 s.header.snapshot_size)),
    data := s.data }

/-- Result of `load_snapshot`: `fatal` is the vassert abort on an
unsupported version tag, `exn` a thrown exception (parser underflow),
`noSnapshot` is `std::nullopt`. -/
inductive LoadResult where
  | fatal
  | exn
  | noSnapshot
  | loaded (s : stm_snapshot)
  deriving Repr, DecidableEq

/-- `load_snapshot`: a `none` input models `open_snapshot` finding no
file. Otherwise parse the version tag, vassert it is a known version
(else `fatal`), return `noSnapshot` for the legacy version, else parse
the header fields and read exactly `snapshot_size` payload bytes. -/
def load_snapshot (file : Option SnapFile) : LoadResult :=
  match file with
  | none => .noSnapshot
  | some f =>
    match parseLE 1 f.meta with
    | none => .exn
    | some (ver, r1) =>
      if ver = snapshot_version ∨ ver = snapshot_version_v0 then
        if ver = snapshot_version_v0 then .noSnapshot
        else
          match parseLE 8 r1 with
          | none => .exn
          | some (off, r2) =>
            match parseLE 1 r2 with
            | none => .exn
            | some (pver, r3) =>
              match parseLE 4 r3 with
              | none => .exn
              | some (sz, _) =>
                .loaded ⟨⟨off, pver, sz⟩, f.data.take sz.toNat⟩
      else .fatal

/-! ## State-machine state and the startup hydration procedure -/

/-- The mutable fields of `persisted_stm` the modelled operations
touch: the sync memoization term `_insync_term`, the apply cursor
`_insync_offset`, the in-flight-sync flag `_is_catching_up`, the
waiter list `_sync_waiters` (waiters are identified by tokens), and
`_last_snapshot_offset`. -/
structure StmState where
  insync_term : Int
  insync_offset : Int
  is_catching_up : Bool
  sync_waiters : List Nat
  last_snapshot_offset : Int
  deriving Repr, DecidableEq

/-- Modelled from the spec: `raft::details::next_offset` (not under
src/) computes the first offset after a covered offset,
`covered_offset + 1`. -/
def next_offset (o : Int) : Int := o + 1

/-- Observable effects of `start()`: whether the process aborted
(vassert on a load failure), the argument `apply_snapshot` was invoked
with (if any), the argument `set_next` was called with (if any),
whether `_resolved_when_snapshot_hydrated` was resolved, and whether
the out-of-sync-snapshot warning was logged. -/
structure StartResult where
  fatal : Bool
  applied : Option stm_snapshot
  nextSet : Option Int
  hydrated : Bool
  warned : Bool
  deriving Repr, DecidableEq

/-- `start()` hydration: a load failure (exception or vassert inside
`load_snapshot`) aborts. With a usable snapshot, compute
`next = next_offset(covered)`; apply the snapshot iff
`next ≥ start_offset`, otherwise only warn; in either case call
`set_next next` and resolve the hydration gate. With no usable
snapshot, `set_next start_offset` only when it is non-negative, and
resolve the hydration gate. -/
def start (loadRes : LoadResult) (startOffset : Int) : StartResult :=
  match loadRes with
  | .fatal => ⟨true, none, none, false, false⟩
  | .exn => ⟨true, none, none, false, false⟩
  | .loaded s =>
    let next := next_offset s.header.offset
    if next ≥ startOffset then
      ⟨false, some s, some next, true, false⟩
    else
      ⟨false, none, some next, true, true⟩
  | .noSnapshot =>
    if startOffset ≥ 0 then ⟨false, none, some startOffset, true, false⟩
    else ⟨false, none, none, true, false⟩

/-! ## Checkpoint scheduler -/

/-- `do_make_snapshot`: take a snapshot whose header covers
`snapOffset`, persist it, and advance `_last_snapshot_offset` to the
max of its current value and `snapOffset`. -/
def do_make_snapshot (snapOffset : Int) (st : StmState) : StmState :=
  { st with last_snapshot_offset := max st.last_snapshot_offset snapOffset }

/-- External readings for one `ensure_snapshot_exists` call: the value
of the apply cursor once `wait(target_offset, no_timeout)` returns,
and the covered offset of the snapshot `take_snapshot` would produce. -/
structure EnsureEnv where
  insyncAfterWait : Int
  snapshotOffset : Int
  deriving Repr, DecidableEq

/-- Observable outcome of `ensure_snapshot_exists`: resulting state,
whether a snapshot was persisted, whether the post-wait vassert fired,
and whether the apply-cursor wait was performed. -/
structure EnsureResult where
  st : StmState
  wrote : Bool
  fatal : Bool
  waited : Bool
  deriving Repr, DecidableEq

/-- `ensure_snapshot_exists(target)` (run under `_op_lock`, after the
hydration gate): if `target ≤ _last_snapshot_offset` return at once;
otherwise wait for the apply cursor to reach `target`, vassert it did
(fatal if not), then `do_make_snapshot`. -/
def ensure_snapshot_exists (env : EnsureEnv) (target : Int) (st : StmState) :
    EnsureResult :=
  if target ≤ st.last_snapshot_offset then ⟨st, false, false, false⟩
  else if target ≤ env.insyncAfterWait then
    ⟨do_make_snapshot env.snapshotOffset
        { st with insync_offset := env.insyncAfterWait },
      true, false, true⟩
  else ⟨{ st with insync_offset := env.insyncAfterWait }, false, true, true⟩

/-! ## Leader-sync protocol -/

/-- Outcome of one awaited wait primitive: normal return or a thrown
exception (timeout or error). -/
inductive WaitRes where
  | ok
  | err
  deriving Repr, DecidableEq

/-- External readings and wait outcomes for one `do_sync` call:
`committed` is `_c->committed_offset()` at entry; `commitWait` the
outcome of `wait_offset_committed`; `termAfter` the engine term read
after that wait; `applyWait t` the outcome of `wait(t, deadline)`; and
`insyncAfter` the apply cursor after the apply wait returns. -/
structure DoSyncEnv where
  committed : Int
  commitWait : WaitRes
  termAfter : Int
  applyWait : Int → WaitRes
  insyncAfter : Int

/-- Observable outcome of `do_sync`: the boolean result, the resulting
state, whether the commit-index wait ran, and the offset the
apply-cursor wait targeted (if it ran). -/
structure DoSyncResult where
  ok : Bool
  st : StmState
  commitWaited : Bool
  applyTarget : Option Int
  deriving Repr, DecidableEq

/-- Second half of `do_sync`, after the commit-offset phase fixed the
effective target `offset`: if the term is unchanged, wait for the
apply cursor to reach `offset`; on success record
`_insync_term = term` and report true; any wait failure or a changed
term reports false. -/
def do_sync_phase2 (env : DoSyncEnv) (offset term : Int) (st : StmState)
    (cw : Bool) : DoSyncResult :=
  if env.termAfter = term then
    match env.applyWait offset with
    | .err => ⟨false, { st with insync_offset := env.insyncAfter }, cw, some offset⟩
    | .ok =>
      ⟨true,
        { st with
          insync_offset := env.insyncAfter,
          insync_term := term },
        cw, some offset⟩
  else ⟨false, st, cw, none⟩

/-- `do_sync(timeout, offset, term)`: read the committed offset; if
the requested offset is beyond it, run `wait_offset_committed`
(reporting any exception as false); otherwise raise the target to the
committed offset; then run the term check and apply-cursor wait. -/
def do_sync (env : DoSyncEnv) (offset term : Int) (st : StmState) : DoSyncResult :=
  if env.committed < offset then
    match env.commitWait with
    | .err => ⟨false, st, true, none⟩
    | .ok => do_sync_phase2 env offset term st true
  else
    do_sync_phase2 env env.committed term st false

/-- External readings for one `sync` call: the engine term and
leadership flag at entry, the dirty offset, the `do_sync` environment,
the token and eventual outcome of the waiter this call registers when
another attempt is in flight, and the tokens of waiters that register
during this call's own suspension points. -/
structure SyncEnv where
  term : Int
  isLeader : Bool
  dirty : Int
  dse : DoSyncEnv
  newWaiterId : Nat
  waiterOutcome : Bool
  newWaiters : List Nat

/-- The state as the in-flight attempt sees it when `do_sync` starts:
`_is_catching_up` set, and the waiters that registered during the
attempt's suspension points appended to the list. -/
def sync_attempt_state (env : SyncEnv) (st : StmState) : StmState :=
  { st with
    is_catching_up := true,
    sync_waiters := st.sync_waiters ++ env.newWaiters }

/-- Which externally visible steps a `sync` call performed: the
commit-index refresh, the commit-index wait, the apply-cursor wait,
registering as a waiter, and the waiters resolved (token, outcome) in
resolution order. -/
structure SyncTrace where
  refreshed : Bool
  commitWaited : Bool
  applyWaited : Bool
  registeredWaiter : Bool
  resolvedWaiters : List (Nat × Bool)
  deriving Repr, DecidableEq

/-- The trace of a `sync` call that returned before any suspension
point. -/
def emptySyncTrace : SyncTrace := ⟨false, false, false, false, []⟩

/-- Observable outcome of a `sync` call. -/
structure SyncResult where
  ok : Bool
  st : StmState
  trace : SyncTrace

/-- `sync(timeout)`: fail if not leader; succeed at once if
`_insync_term` equals the current term; if an attempt is already in
flight, register a waiter and return its eventual outcome; otherwise
become the attempt: set `_is_catching_up`, refresh the commit index
(new waiters may register during the awaits), run `do_sync` on the
dirty offset, then clear `_is_catching_up`, resolve every registered
waiter with the attempt's outcome in list order, clear the list, and
return the outcome. -/
def sync (env : SyncEnv) (st : StmState) : SyncResult :=
  if env.isLeader = false then ⟨false, st, emptySyncTrace⟩
  else if st.insync_term = env.term then ⟨true, st, emptySyncTrace⟩
  else if st.is_catching_up = true then
    ⟨env.waiterOutcome,
      { st with sync_waiters := st.sync_waiters ++ [env.newWaiterId] },
      { emptySyncTrace with registeredWaiter := true }⟩
  else
    let r := do_sync env.dse env.dirty env.term (sync_attempt_state env st)
    ⟨r.ok,
      { r.st with is_catching_up := false, sync_waiters := [] },
      { refreshed := true, commitWaited := r.commitWaited,
        applyWaited := r.applyTarget.isSome, registeredWaiter := false,
        resolvedWaiters := r.st.sync_waiters.map (fun w => (w, r.ok)) }⟩

/-! ## Codec lemmas -/

theorem natToLE_length (w n : Nat) : (natToLE w n).length = w := by
  induction w generalizing n with
  | zero => simp [natToLE]
  | succ w ih => simp [natToLE, ih]

theorem leToNat_natToLE (w n : Nat) (h : n < 256 ^ w) :
    leToNat (natToLE w n) = n := by
  induction w generalizing n with
  | zero => simp [natToLE, leToNat]; omega
  | succ w ih =>
    have hdiv : n / 256 < 256 ^ w := by
      rw [Nat.div_lt_iff_lt_mul (by norm_num : 0 < 256)]
      calc n < 256 ^ (w + 1) := h
        _ = 256 ^ w * 256 := by ring
    simp only [natToLE, leToNat, ih (n / 256) hdiv]
    omega

theorem toUnsigned_lt (w : Nat) (i : Int) : toUnsigned w i < 256 ^ w := by
  have hb : (0 : Int) < 256 ^ w := by positivity
  have h1 := Int.emod_nonneg i (ne_of_gt hb)
  have h2 := Int.emod_lt_of_pos i hb
  have : ((toUnsigned w i : Nat) : Int) < ((256 ^ w : Nat) : Int) := by
    unfold toUnsigned
    rw [Int.toNat_of_nonneg h1]
    push_cast
    exact h2
  exact_mod_cast this

theorem toSigned_toUnsigned (w : Nat) (i : Int)
    (h1 : 0 ≤ 2 * i + 256 ^ w) (h2 : 2 * i < 256 ^ w) :
    toSigned w (toUnsigned w i) = i := by
  have hb : (0 : Int) < 256 ^ w := by positivity
  have hcast : ((256 ^ w : Nat) : Int) = 256 ^ w := by push_cast; ring
  rcases le_or_lt 0 i with hi | hi
  · have hlt : i < 256 ^ w := by omega
    have hmod : i % (256 ^ w : Int) = i := Int.emod_eq_of_lt hi hlt
    have hval : ((toUnsigned w i : Nat) : Int) = i := by
      unfold toUnsigned; rw [hmod, Int.toNat_of_nonneg hi]
    unfold toSigned
    have hcond : 2 * toUnsigned w i < 256 ^ w := by
      have : (2 * (toUnsigned w i : Nat) : Int) < ((256 ^ w : Nat) : Int) := by
        push_cast; rw [hval]; omega
      exact_mod_cast this
    rw [if_pos hcond, hval]
  · have hmod : i % (256 ^ w : Int) = i + 256 ^ w := by
      have heq : (i + 256 ^ w * 1) % (256 ^ w : Int) = i % (256 ^ w : Int) :=
        Int.add_mul_emod_self_left i (256 ^ w) 1
      have harith : i + 256 ^ w * 1 = i + 256 ^ w := by ring
      rw [harith] at heq
      rw [← heq]
      exact Int.emod_eq_of_lt (by omega) (by omega)
    have hnn : (0 : Int) ≤ i + 256 ^ w := by omega
    have hval : ((toUnsigned w i : Nat) : Int) = i + 256 ^ w := by
      unfold toUnsigned; rw [hmod, Int.toNat_of_nonneg hnn]
    unfold toSigned
    have hcond : ¬ 2 * toUnsigned w i < 256 ^ w := by
      intro hlt
      have : (2 * (toUnsigned w i : Nat) : Int) < ((256 ^ w : Nat) : Int) := by
        exact_mod_cast hlt
      rw [hcast] at this
      omega
    rw [if_neg hcond, hval]
    omega

theorem parseLE_serInt (w : Nat) (i : Int) (rest : List Nat)
    (h1 : 0 ≤ 2 * i + 256 ^ w) (h2 : 2 * i < 256 ^ w) :
    parseLE w (serInt w i ++ rest) = some (i, rest) := by
  have hlen : (serInt w i).length = w := natToLE_length _ _
  unfold parseLE
  rw [if_pos (by simp [hlen])]
  have htake : (serInt w i ++ rest).take w = serInt w i :=
    List.take_left' hlen
  have hdrop : (serInt w i ++ rest).drop w = rest :=
    List.drop_left' hlen
  rw [htake, hdrop]
  unfold serInt
  rw [leToNat_natToLE w _ (toUnsigned_lt w i), toSigned_toUnsigned w i h1 h2]

/-! ## Codec claims -/

/-- C2: decode ∘ encode is the identity. For every checkpoint whose
header fields lie in their machine-integer ranges (int64 covered
offset, int8 payload version, int32 payload size) and whose payload
length equals `snapshot_size`, reading back the bytes written by
`persist_snapshot` with `load_snapshot` yields an equal header and
payload. -/
theorem load_persist_roundtrip (s : stm_snapshot)
    (hoff1 : -(2 ^ 63) ≤ s.header.offset) (hoff2 : s.header.offset < 2 ^ 63)
    (hver1 : -(2 ^ 7) ≤ s.header.version) (hver2 : s.header.version < 2 ^ 7)
    (hsz : s.header.snapshot_size = (s.data.length : Int))
    (hlt : (s.data.length : Int) < 2 ^ 31) :
    load_snapshot (some (persist_snapshot s)) = .loaded s := by
  norm_num at hoff1 hoff2 hver1 hver2 hlt
  have hpv : parseLE 1 ((persist_snapshot s).meta)
      = some (snapshot_version, serInt 8 s.header.offset
          ++ (serInt 1 s.header.version ++ serInt 4 s.header.snapshot_size)) := by
    unfold persist_snapshot
    exact parseLE_serInt 1 snapshot_version _
      (by norm_num [snapshot_version]) (by norm_num [snapshot_version])
  have hpoff : parseLE 8 (serInt 8 s.header.offset
        ++ (serInt 1 s.header.version ++ serInt 4 s.header.snapshot_size))
      = some (s.header.offset,
          serInt 1 s.header.version ++ serInt 4 s.header.snapshot_size) :=
    parseLE_serInt 8 _ _ (by norm_num; omega) (by norm_num; omega)
  have hpver : parseLE 1 (serInt 1 s.header.version ++ serInt 4 s.header.snapshot_size)
      = some (s.header.version, serInt 4 s.header.snapshot_size) :=
    parseLE_serInt 1 _ _ (by norm_num; omega) (by norm_num; omega)
  have hpsz : parseLE 4 (serInt 4 s.header.snapshot_size)
      = some (s.header.snapshot_size, []) := by
    have h := parseLE_serInt 4 s.header.snapshot_size []
      (by norm_num; omega) (by norm_num; omega)
    simpa using h
  have htn : s.header.snapshot_size.toNat = s.data.length := by
    rw [hsz]; exact Int.toNat_natCast _
  simp only [load_snapshot, hpv, hpoff, hpver, hpsz]
  norm_num [snapshot_version, snapshot_version_v0, htn, persist_snapshot,
    List.take_length]

/-- C2 witness: a concrete checkpoint round-trips. -/
theorem load_persist_roundtrip_witness :
    load_snapshot (some (persist_snapshot ⟨⟨50, 2, 3⟩, [7, 8, 9]⟩))
      = .loaded ⟨⟨50, 2, 3⟩, [7, 8, 9]⟩ :=
  load_persist_roundtrip ⟨⟨50, 2, 3⟩, [7, 8, 9]⟩ (by decide) (by decide)
    (by decide) (by decide) (by decide) (by decide)

/-- C6: a checkpoint whose format-version tag equals the recognized
legacy version (`snapshot_version_v0`) makes `load_snapshot` return
"no usable checkpoint" — not a decode error, not a crash; the caller
then falls back to full log replay. -/
theorem load_snapshot_legacy_none (f : SnapFile) (r : List Nat)
    (hp : parseLE 1 f.meta = some (snapshot_version_v0, r)) :
    load_snapshot (some f) = .noSnapshot := by
  simp [load_snapshot, hp]

/-- C6 witness: a concrete legacy-tagged file yields `noSnapshot`. -/
theorem load_snapshot_legacy_none_witness :
    load_snapshot (some ⟨[0], [1, 2]⟩) = .noSnapshot :=
  load_snapshot_legacy_none ⟨[0], [1, 2]⟩ [] (by decide)

/-- C7: the vassert-fatal branch of `load_snapshot` is reached exactly
when the parsed format-version tag is neither the current nor the
recognized legacy version. -/
theorem load_snapshot_fatal_iff (f : SnapFile) (v : Int) (r : List Nat)
    (hp : parseLE 1 f.meta = some (v, r)) :
    load_snapshot (some f) = .fatal
      ↔ (v ≠ snapshot_version ∧ v ≠ snapshot_version_v0) := by
  by_cases h0 : v = snapshot_version_v0
  · simp [load_snapshot, hp, h0]
  · by_cases h1 : v = snapshot_version
    · subst h1
      cases h8 : parseLE 8 r with
      | none =>
        simp [load_snapshot, hp, h8, h0]
      | some p8 =>
        obtain ⟨off, r2⟩ := p8
        cases hq : parseLE 1 r2 with
        | none =>
          simp [load_snapshot, hp, h8, hq, h0]
        | some p1 =>
          obtain ⟨pver, r3⟩ := p1
          cases h4 : parseLE 4 r3 with
          | none =>
            simp [load_snapshot, hp, h8, hq, h4, h0]
          | some p4 =>
            obtain ⟨sz, r4⟩ := p4
            simp [load_snapshot, hp, h8, hq, h4, h0]
    · simp [load_snapshot, hp, h0, h1]

/-- C7 witness: a concrete unknown version tag (5) aborts, shown by
instantiating the exactness theorem. -/
theorem load_snapshot_fatal_iff_witness :
    load_snapshot (some ⟨[5], []⟩) = .fatal :=
  (load_snapshot_fatal_iff ⟨[5], []⟩ 5 [] (by decide)).mpr (by decide)

/-! ## Hydration and checkpoint-scheduler claims -/

/-- C1 counterexample: checkpoint covering offset 50, log start offset
80 (checkpoint below the retained range). The claim asserts `start`
leaves the apply cursor unset in this branch, but the code calls
`set_next(next_offset(covered))` unconditionally after the if/else, so
the cursor is assigned 51. -/
theorem start_stale_cursor_cex :
    ¬ ((start (.loaded ⟨⟨50, 0, 0⟩, []⟩) 80).applied = none
      ∧ (start (.loaded ⟨⟨50, 0, 0⟩, []⟩) 80).nextSet = none) := by
  decide

/-- C1 amended: for a usable checkpoint whose next offset
(`covered_offset + 1`) is below the log's retained start offset,
`start` does not invoke the restore hook, logs the skip warning, sets
the apply cursor to `covered_offset + 1` (leaving eviction detection
to the apply loop), resolves the hydration gate, and does not crash. -/
theorem start_stale_skips_apply (s : stm_snapshot) (startOffset : Int)
    (h : next_offset s.header.offset < startOffset) :
    (start (.loaded s) startOffset).applied = none
    ∧ (start (.loaded s) startOffset).nextSet
        = some (next_offset s.header.offset)
    ∧ (start (.loaded s) startOffset).warned = true
    ∧ (start (.loaded s) startOffset).hydrated = true
    ∧ (start (.loaded s) startOffset).fatal = false := by
  simp only [start, ge_iff_le]
  rw [if_neg (not_le.mpr h)]
  exact ⟨rfl, rfl, rfl, rfl, rfl⟩

/-- C1 amended witness: the covered-50 / start-80 scenario. -/
theorem start_stale_skips_apply_witness :
    next_offset 50 < 80
    ∧ (start (.loaded ⟨⟨50, 0, 0⟩, []⟩) 80).applied = none
    ∧ (start (.loaded ⟨⟨50, 0, 0⟩, []⟩) 80).nextSet = some 51 :=
  ⟨by decide,
    (start_stale_skips_apply ⟨⟨50, 0, 0⟩, []⟩ 80 (by decide)).1,
    (start_stale_skips_apply ⟨⟨50, 0, 0⟩, []⟩ 80 (by decide)).2.1⟩

/-- C9: startup with no checkpoint on disk never invokes the restore
hook, resolves the hydration gate, and does not abort; it sets the
apply cursor to the log's retained start offset exactly when that
offset is non-negative. -/
theorem start_no_snapshot_hydrates (startOffset : Int) :
    (start .noSnapshot startOffset).applied = none
    ∧ (start .noSnapshot startOffset).hydrated = true
    ∧ (start .noSnapshot startOffset).fatal = false
    ∧ (0 ≤ startOffset →
        (start .noSnapshot startOffset).nextSet = some startOffset)
    ∧ (startOffset < 0 → (start .noSnapshot startOffset).nextSet = none) := by
  simp only [start, ge_iff_le]
  by_cases h : (0 : Int) ≤ startOffset
  · rw [if_pos h]
    exact ⟨rfl, rfl, rfl, fun _ => rfl, fun h2 => absurd h2 (not_lt.mpr h)⟩
  · rw [if_neg h]
    exact ⟨rfl, rfl, rfl, fun h2 => absurd h2 h, fun _ => rfl⟩

/-- C9 witness: log start offset 100, no checkpoint: cursor set to
100, derived state empty, readiness resolved. -/
theorem start_no_snapshot_hydrates_witness :
    (start .noSnapshot 100).applied = none
    ∧ (start .noSnapshot 100).hydrated = true
    ∧ (0 ≤ (100 : Int) ∧ (start .noSnapshot 100).nextSet = some 100) :=
  ⟨(start_no_snapshot_hydrates 100).1, (start_no_snapshot_hydrates 100).2.1,
    by decide, (start_no_snapshot_hydrates 100).2.2.2.1 (by decide)⟩

/-- C8: `ensure_snapshot_exists` returns immediately, with no wait and
no write, when the target is already covered by
`_last_snapshot_offset`; consequently after `do_make_snapshot`
completes a checkpoint covering `O`, two further calls with targets
`≤ O` perform no write at all (at most one write in total, namely
zero). -/
theorem ensure_snapshot_idempotent :
    (∀ (env : EnsureEnv) (target : Int) (st : StmState),
      target ≤ st.last_snapshot_offset →
      ensure_snapshot_exists env target st = ⟨st, false, false, false⟩)
    ∧ ∀ (env1 env2 : EnsureEnv) (o t1 t2 : Int) (st : StmState),
      t1 ≤ o → t2 ≤ o →
      (ensure_snapshot_exists env1 t1 (do_make_snapshot o st)).wrote = false
      ∧ (ensure_snapshot_exists env2 t2
          (ensure_snapshot_exists env1 t1 (do_make_snapshot o st)).st).wrote
          = false
      ∧ (ensure_snapshot_exists env1 t1 (do_make_snapshot o st)).st
          = do_make_snapshot o st := by
  have himm : ∀ (env : EnsureEnv) (target : Int) (st : StmState),
      target ≤ st.last_snapshot_offset →
      ensure_snapshot_exists env target st = ⟨st, false, false, false⟩ := by
    intro env target st h
    unfold ensure_snapshot_exists
    rw [if_pos h]
  refine ⟨himm, ?_⟩
  intro env1 env2 o t1 t2 st h1 h2
  have hcov : ∀ t : Int, t ≤ o →
      t ≤ (do_make_snapshot o st).last_snapshot_offset := by
    intro t ht
    unfold do_make_snapshot
    simp only
    exact le_trans ht (le_max_right _ _)
  have e1 : ensure_snapshot_exists env1 t1 (do_make_snapshot o st)
      = ⟨do_make_snapshot o st, false, false, false⟩ :=
    himm env1 t1 _ (hcov t1 h1)
  refine ⟨by rw [e1], ?_, by rw [e1]⟩
  rw [e1]
  have e2 : ensure_snapshot_exists env2 t2 (do_make_snapshot o st)
      = ⟨do_make_snapshot o st, false, false, false⟩ :=
    himm env2 t2 _ (hcov t2 h2)
  rw [e2]

/-- C8 witness: after a checkpoint covering offset 9, two calls with
targets 7 and 9 write nothing. -/
theorem ensure_snapshot_idempotent_witness :
    (7 : Int) ≤ 9
    ∧ (ensure_snapshot_exists ⟨0, 0⟩ 7
        (do_make_snapshot 9 ⟨0, 0, false, [], 0⟩)).wrote = false
    ∧ (ensure_snapshot_exists ⟨0, 0⟩ 9
        (ensure_snapshot_exists ⟨0, 0⟩ 7
          (do_make_snapshot 9 ⟨0, 0, false, [], 0⟩)).st).wrote = false :=
  ⟨by decide,
    (ensure_snapshot_idempotent.2 ⟨0, 0⟩ ⟨0, 0⟩ 9 7 9 ⟨0, 0, false, [], 0⟩
      (by decide) (by decide)).1,
    (ensure_snapshot_idempotent.2 ⟨0, 0⟩ ⟨0, 0⟩ 9 7 9 ⟨0, 0, false, [], 0⟩
      (by decide) (by decide)).2.1⟩

/-! ## Leader-sync lemmas -/

theorem do_sync_phase2_preserves (env : DoSyncEnv) (offset term : Int)
    (st : StmState) (cw : Bool) :
    (do_sync_phase2 env offset term st cw).st.sync_waiters = st.sync_waiters
    ∧ (do_sync_phase2 env offset term st cw).st.is_catching_up
        = st.is_catching_up := by
  unfold do_sync_phase2
  by_cases h : env.termAfter = term
  · rw [if_pos h]
    cases env.applyWait offset <;> exact ⟨rfl, rfl⟩
  · rw [if_neg h]
    exact ⟨rfl, rfl⟩

theorem do_sync_preserves (env : DoSyncEnv) (offset term : Int) (st : StmState) :
    (do_sync env offset term st).st.sync_waiters = st.sync_waiters
    ∧ (do_sync env offset term st).st.is_catching_up = st.is_catching_up := by
  unfold do_sync
  by_cases h : env.committed < offset
  · rw [if_pos h]
    cases env.commitWait
    · exact do_sync_phase2_preserves env offset term st true
    · exact ⟨rfl, rfl⟩
  · rw [if_neg h]
    exact do_sync_phase2_preserves env env.committed term st false

theorem do_sync_phase2_term_change (env : DoSyncEnv) (offset term : Int)
    (st : StmState) (cw : Bool) (h : ¬ env.termAfter = term) :
    do_sync_phase2 env offset term st cw = ⟨false, st, cw, none⟩ := by
  unfold do_sync_phase2
  rw [if_neg h]

theorem do_sync_phase2_apply_err (env : DoSyncEnv) (offset term : Int)
    (st : StmState) (cw : Bool) (h : env.applyWait offset = .err) :
    (do_sync_phase2 env offset term st cw).ok = false := by
  unfold do_sync_phase2
  by_cases ht : env.termAfter = term
  · rw [if_pos ht, h]
  · rw [if_neg ht]

theorem do_sync_phase2_ok_sets_term (env : DoSyncEnv) (offset term : Int)
    (st : StmState) (cw : Bool)
    (h : (do_sync_phase2 env offset term st cw).ok = true) :
    (do_sync_phase2 env offset term st cw).st.insync_term = term := by
  unfold do_sync_phase2 at h ⊢
  by_cases ht : env.termAfter = term
  · rw [if_pos ht] at h ⊢
    revert h
    cases env.applyWait offset
    · intro _
      rfl
    · intro h
      simp at h
  · rw [if_neg ht] at h
    simp at h

theorem do_sync_ok_sets_term (env : DoSyncEnv) (offset term : Int)
    (st : StmState) (h : (do_sync env offset term st).ok = true) :
    (do_sync env offset term st).st.insync_term = term := by
  unfold do_sync at h ⊢
  by_cases hc : env.committed < offset
  · rw [if_pos hc] at h ⊢
    revert h
    cases env.commitWait
    · intro h
      exact do_sync_phase2_ok_sets_term env offset term st true h
    · intro h
      simp at h
  · rw [if_neg hc] at h ⊢
    exact do_sync_phase2_ok_sets_term env env.committed term st false h

theorem sync_ok_state (env : SyncEnv) (st : StmState)
    (hnc : st.is_catching_up = false)
    (hok : (sync env st).ok = true) :
    (sync env st).st.insync_term = env.term
    ∧ (sync env st).st.is_catching_up = false := by
  unfold sync at hok ⊢
  by_cases hL : env.isLeader = false
  · rw [if_pos hL] at hok ⊢
    simp at hok
  · rw [if_neg hL] at hok ⊢
    by_cases hm : st.insync_term = env.term
    · rw [if_pos hm] at hok ⊢
      exact ⟨hm, hnc⟩
    · rw [if_neg hm] at hok ⊢
      rw [if_neg (by simp [hnc])] at hok ⊢
      exact ⟨do_sync_ok_sets_term env.dse env.dirty env.term
        (sync_attempt_state env st) hok, rfl⟩

/-! ## Leader-sync claims -/

/-- C3: term-scoped memoization. While leader, when the cached
`_insync_term` already equals the current term, `sync` succeeds
immediately with no commit-index refresh, no commit-index wait, no
apply-cursor wait, and unchanged state (second conjunct); hence after
any successful `sync` in term T, a second call while still leader in T
succeeds and performs none of those steps (first conjunct). -/
theorem sync_term_memoized (env env2 : SyncEnv) (st : StmState)
    (hl2 : env2.isLeader = true) (ht : env2.term = env.term)
    (hnc : st.is_catching_up = false) (hok : (sync env st).ok = true) :
    sync env2 (sync env st).st = ⟨true, (sync env st).st, emptySyncTrace⟩
    ∧ (env.isLeader = true → st.insync_term = env.term →
        sync env st = ⟨true, st, emptySyncTrace⟩) := by
  constructor
  · obtain ⟨h1, _⟩ := sync_ok_state env st hnc hok
    generalize hX : (sync env st).st = X at h1 ⊢
    unfold sync
    rw [if_neg (by simp [hl2]), if_pos (by rw [h1, ht])]
  · intro hl hm
    unfold sync
    rw [if_neg (by simp [hl]), if_pos hm]

/-- C3 witness: leader in term 3 with `_insync_term = 3`: the call
succeeds, and the follow-up call is a no-wait success. -/
theorem sync_term_memoized_witness :
    (sync ⟨3, true, 0, ⟨0, .ok, 3, fun _ => .ok, 0⟩, 0, false, []⟩
        ⟨3, 0, false, [], 0⟩).ok = true
    ∧ sync ⟨3, true, 0, ⟨0, .ok, 3, fun _ => .ok, 0⟩, 0, false, []⟩
        (sync ⟨3, true, 0, ⟨0, .ok, 3, fun _ => .ok, 0⟩, 0, false, []⟩
          ⟨3, 0, false, [], 0⟩).st
      = ⟨true, (sync ⟨3, true, 0, ⟨0, .ok, 3, fun _ => .ok, 0⟩, 0, false, []⟩
          ⟨3, 0, false, [], 0⟩).st, emptySyncTrace⟩ :=
  ⟨by decide,
    (sync_term_memoized ⟨3, true, 0, ⟨0, .ok, 3, fun _ => .ok, 0⟩, 0, false, []⟩
      ⟨3, true, 0, ⟨0, .ok, 3, fun _ => .ok, 0⟩, 0, false, []⟩
      ⟨3, 0, false, [], 0⟩ rfl rfl rfl (by decide)).1⟩

/-- C4: when the attempt this caller started resolves with outcome b,
`sync` clears `_is_catching_up`, resolves every waiter registered
during the attempt with that same b in enqueue order, empties the
waiter list, and returns b; no waiter receives a different outcome. -/
theorem sync_attempt_resolves_waiters (env : SyncEnv) (st : StmState)
    (hl : env.isLeader = true) (hm : ¬ st.insync_term = env.term)
    (hnc : st.is_catching_up = false) :
    (sync env st).ok
      = (do_sync env.dse env.dirty env.term (sync_attempt_state env st)).ok
    ∧ (sync env st).st.is_catching_up = false
    ∧ (sync env st).st.sync_waiters = []
    ∧ (sync env st).trace.resolvedWaiters
        = (st.sync_waiters ++ env.newWaiters).map
            (fun w => (w, (sync env st).ok))
    ∧ ∀ p ∈ (sync env st).trace.resolvedWaiters, p.2 = (sync env st).ok := by
  unfold sync
  rw [if_neg (by simp [hl]), if_neg hm, if_neg (by simp [hnc])]
  refine ⟨rfl, rfl, rfl, ?_, ?_⟩
  · show (do_sync env.dse env.dirty env.term
        (sync_attempt_state env st)).st.sync_waiters.map _ = _
    rw [(do_sync_preserves env.dse env.dirty env.term
      (sync_attempt_state env st)).1]
    rfl
  · intro p hp
    simp only [List.mem_map] at hp
    obtain ⟨w, _, rfl⟩ := hp
    rfl

/-- C4 witness: an attempt with one pre-registered waiter and one
waiter arriving mid-attempt: the flag is cleared and the list emptied. -/
theorem sync_attempt_resolves_waiters_witness :
    (sync ⟨3, true, 7, ⟨10, .ok, 3, fun _ => .ok, 12⟩, 99, false, [2]⟩
        ⟨0, 0, false, [1], 5⟩).st.is_catching_up = false
    ∧ (sync ⟨3, true, 7, ⟨10, .ok, 3, fun _ => .ok, 12⟩, 99, false, [2]⟩
        ⟨0, 0, false, [1], 5⟩).st.sync_waiters = [] :=
  ⟨(sync_attempt_resolves_waiters
      ⟨3, true, 7, ⟨10, .ok, 3, fun _ => .ok, 12⟩, 99, false, [2]⟩
      ⟨0, 0, false, [1], 5⟩ rfl (by decide) rfl).2.1,
    (sync_attempt_resolves_waiters
      ⟨3, true, 7, ⟨10, .ok, 3, fun _ => .ok, 12⟩, 99, false, [2]⟩
      ⟨0, 0, false, [1], 5⟩ rfl (by decide) rfl).2.2.1⟩

/-- C5: `do_sync` failure modes. A term observed after the
commit-offset phase that differs from the captured term yields false
and leaves `_insync_term` unchanged; a commit-index wait exception
yields false; an apply-cursor wait exception (its target being the max
of the requested and entry-committed offsets) yields false. Every
failure is the boolean result false — `do_sync` is total. -/
theorem do_sync_failure_modes (env : DoSyncEnv) (offset term : Int)
    (st : StmState) :
    (¬ env.termAfter = term →
      (do_sync env offset term st).ok = false
      ∧ (do_sync env offset term st).st.insync_term = st.insync_term)
    ∧ (env.committed < offset → env.commitWait = .err →
      (do_sync env offset term st).ok = false)
    ∧ (env.applyWait (max offset env.committed) = .err →
      (do_sync env offset term st).ok = false) := by
  unfold do_sync
  by_cases hc : env.committed < offset
  · rw [if_pos hc]
    have hmax : max offset env.committed = offset := max_eq_left (le_of_lt hc)
    cases hw : env.commitWait
    · refine ⟨?_, ?_, ?_⟩
      · intro hterm
        rw [do_sync_phase2_term_change env offset term st true hterm]
        exact ⟨rfl, rfl⟩
      · intro _ h2
        exact WaitRes.noConfusion h2
      · intro happ
        rw [hmax] at happ
        exact do_sync_phase2_apply_err env offset term st true happ
    · exact ⟨fun _ => ⟨rfl, rfl⟩, fun _ _ => rfl, fun _ => rfl⟩
  · rw [if_neg hc]
    have hmax : max offset env.committed = env.committed :=
      max_eq_right (not_lt.mp hc)
    refine ⟨?_, ?_, ?_⟩
    · intro hterm
      rw [do_sync_phase2_term_change env env.committed term st false hterm]
      exact ⟨rfl, rfl⟩
    · intro h2
      exact absurd h2 hc
    · intro happ
      rw [hmax] at happ
      exact do_sync_phase2_apply_err env env.committed term st false happ

/-- C5 witness: a term change from 3 to 4 during the wait makes
`do_sync` report false. -/
theorem do_sync_failure_modes_witness :
    ¬ (4 : Int) = 3
    ∧ (do_sync ⟨10, .ok, 4, fun _ => .ok, 10⟩ 7 3
        ⟨0, 0, false, [], 0⟩).ok = false :=
  ⟨by decide,
    ((do_sync_failure_modes ⟨10, .ok, 4, fun _ => .ok, 10⟩ 7 3
      ⟨0, 0, false, [], 0⟩).1 (by decide)).1⟩

/-- C10: when the requested offset is at most the committed offset
observed at entry, the apply-cursor wait targets that committed
offset; hence (under the wait primitive's contract that a normal
return means the cursor reached the target) a true result implies the
apply cursor reached at least the entry-time committed offset. -/
theorem do_sync_reaches_committed (env : DoSyncEnv) (offset term : Int)
    (st : StmState) (hle : offset ≤ env.committed)
    (hwait : env.applyWait env.committed = .ok →
      env.committed ≤ env.insyncAfter) :
    (∀ o, (do_sync env offset term st).applyTarget = some o
      → o = env.committed)
    ∧ ((do_sync env offset term st).ok = true →
        env.committed ≤ (do_sync env offset term st).st.insync_offset) := by
  unfold do_sync
  rw [if_neg (not_lt.mpr hle)]
  unfold do_sync_phase2
  by_cases ht : env.termAfter = term
  · rw [if_pos ht]
    cases hw : env.applyWait env.committed
    · exact ⟨fun o ho => (Option.some.inj ho).symm, fun _ => hwait hw⟩
    · exact ⟨fun o ho => (Option.some.inj ho).symm,
        fun h2 => absurd h2 (by simp)⟩
  · rw [if_neg ht]
    exact ⟨fun o ho => Option.noConfusion ho, fun h2 => absurd h2 (by simp)⟩

/-- C10 witness: requested offset 5 with committed offset 10: success
implies the apply cursor reached 10. -/
theorem do_sync_reaches_committed_witness :
    (5 : Int) ≤ 10
    ∧ (10 : Int) ≤ (do_sync ⟨10, .ok, 3, fun _ => .ok, 11⟩ 5 3
        ⟨0, 0, false, [], 0⟩).st.insync_offset :=
  ⟨by decide,
    (do_sync_reaches_committed ⟨10, .ok, 3, fun _ => .ok, 11⟩ 5 3
      ⟨0, 0, false, [], 0⟩ (by decide) (by decide)).2 (by decide)⟩

end PersistedStm
